import Mathlib

/-!
A shallow embedding of `src/vtkToVtp.py` (class `CombinedVTKConverter`), the
VTK-to-VTP combined-time-series converter, together with proofs about the
claims of the specification.

Modelling conventions:
* The VTK library is an external collaborator (spec section 1).  Its
  capabilities (the two file readers, the two geometry filters, the XML
  writer, filesystem tests, directory listings) are parameters collected in
  an `Env` structure.  A capability that can raise a Python exception is
  modelled as returning `Except String _`; the converter's `try/except`
  blocks become explicit `match` recoveries.
* A VTK dataset is modelled by `VtkData`: its class name, its point count,
  its named per-point attribute arrays and its named field-data arrays.
  `vtkPointData.AddArray` replaces any array of the same name, which
  `addArrayAssoc` mirrors.  `vtkAppendPolyData` is modelled with the
  geometric-append semantics the specification gives it (section 4.5
  step 4): the output point list is the positional concatenation of the
  inputs' point lists, and like-named per-point arrays present in every
  input are concatenated in the same order.
* Python floats are modelled exactly, as rationals.
-/

/-- A named attribute value: VTK integer, float and string tuples. -/
inductive AttrValue where
  | int (i : Int)
  | float (q : ℚ)
  | str (s : String)
  deriving DecidableEq, Repr

/-- A VTK dataset: class name, point count, per-point arrays, field data. -/
structure VtkData where
  className : String
  numPoints : Nat
  pointData : List (String × List AttrValue)
  fieldData : List (String × List AttrValue)
  deriving DecidableEq, Repr

/-- Look up a named per-point (or field) array, first match wins, as
`vtkPointData.GetArray(name)` does. -/
def lookupArr (arrays : List (String × List AttrValue)) (nm : String) :
    Option (List AttrValue) :=
  (arrays.find? (fun a => a.1 == nm)).map (fun a => a.2)

/-- `AddArray`: replace any same-named array, then append the new one. -/
def addArrayAssoc (arrays : List (String × List AttrValue)) (nm : String)
    (vals : List AttrValue) : List (String × List AttrValue) :=
  arrays.filter (fun a => a.1 != nm) ++ [(nm, vals)]

/-- The external capabilities used by `vtkToVtp.py`: the VTK readers and
filters, the serializer, and the filesystem, each behaving as the
environment dictates. -/
structure Env where
  vtkAvailable : Bool
  readGeneric : String → Except String (Option VtkData)
  readUnstructured : String → Except String (Option VtkData)
  geomFilter : VtkData → Except String VtkData
  surfaceFilter : VtkData → Except String VtkData
  serialize : VtkData → String → Except String Unit
  fileExists : String → Bool
  mainFiles : List String
  compFiles : String → List String
  pathExists : String → Bool

/-! ### Timestep extraction (`extract_timestep_from_filename`, lines 32-35)

The Python code runs `re.search(r'gravityCasting_(\d+)\.vtk', name)` and
returns `int(group(1))` on a match, `0` otherwise.  `re.search` looks for
the leftmost starting position at which the pattern matches.  Because the
character after `\d+` in the pattern is the literal `'.'`, which is not a
digit, the regex engine's backtracking on `\d+` is equivalent to maximal
munch: take the longest digit run, then require `".vtk"`. -/

/-- Literal part of the pattern before the digit group. -/
def patLit : List Char := "gravityCasting_".data

/-- Literal part of the pattern after the digit group. -/
def extLit : List Char := ".vtk".data

/-- Match a literal at the front of a character list, returning the rest. -/
def stripLit : List Char → List Char → Option (List Char)
  | [], cs => some cs
  | _ :: _, [] => none
  | p :: ps, c :: cs => if c = p then stripLit ps cs else none

/-- Match `gravityCasting_(\d+)\.vtk` at the start of `cs`, returning the
digit group. -/
def matchPatAt (cs : List Char) : Option (List Char) :=
  match stripLit patLit cs with
  | none => none
  | some rest =>
    let ds := rest.takeWhile Char.isDigit
    if ds.isEmpty then none
    else
      match stripLit extLit (rest.dropWhile Char.isDigit) with
      | none => none
      | some _ => some ds

/-- `re.search`: try the pattern at each start position, leftmost first. -/
def searchPat : List Char → Option (List Char)
  | [] => none
  | c :: cs =>
    match matchPatAt (c :: cs) with
    | some ds => some ds
    | none => searchPat cs

/-- Numeric value of a decimal digit character. -/
def digitVal (c : Char) : Nat := c.toNat - '0'.toNat

/-- Python `int` on a string of decimal digits. -/
def digitsToNat (ds : List Char) : Nat :=
  ds.foldl (fun acc c => 10 * acc + digitVal c) 0

/-- Lines 32-35: extract the timestep from a file name, defaulting to 0. -/
def extract_timestep_from_filename (filename : String) : Nat :=
  match searchPat filename.data with
  | some ds => digitsToNat ds
  | none => 0

/-! ### `safe_read_vtk` (lines 73-106) -/

/-- The body of the `try` block of `safe_read_vtk`: generic reader first,
and only when it yields no points the unstructured-grid reader.  Either
reader may raise. -/
def safe_read_body (env : Env) (filepath : String) :
    Except String (Option VtkData) :=
  match env.readGeneric filepath with
  | .error e => .error e
  | .ok d =>
    match d with
    | some dd =>
      if 0 < dd.numPoints then .ok (some dd)
      else
        match env.readUnstructured filepath with
        | .error e => .error e
        | .ok u =>
          match u with
          | some uu => .ok (if 0 < uu.numPoints then some uu else none)
          | none => .ok none
    | none =>
      match env.readUnstructured filepath with
      | .error e => .error e
      | .ok u =>
        match u with
        | some uu => .ok (if 0 < uu.numPoints then some uu else none)
        | none => .ok none

/-- Lines 73-106: `safe_read_vtk`.  The surrounding `try/except` converts
any reader exception into a `None` result. -/
def safe_read_vtk (env : Env) (filepath : String) : Option VtkData :=
  if env.vtkAvailable then
    match safe_read_body env filepath with
    | .ok r => r
    | .error _ => none
  else none

/-! ### `convert_to_polydata` (lines 108-161) -/

/-- The fixed component enumeration of lines 139-145, with the
`dict.get(name, 0)` default. -/
def component_ids (name : String) : Int :=
  if name = "gravityCasting" then 1
  else if name = "inlet" then 2
  else if name = "model" then 3
  else if name = "riser" then 4
  else 0

/-- Lines 114-128: normalization to polydata.  Pass a `vtkPolyData`
through unchanged; otherwise run the geometry filter, falling back to the
surface filter when the geometry filter yields zero points.  Filters may
raise. -/
def normalize_body (env : Env) (d : VtkData) : Except String VtkData :=
  if d.className = "vtkPolyData" then .ok d
  else
    match env.geomFilter d with
    | .error e => .error e
    | .ok g => if g.numPoints = 0 then env.surfaceFilter d else .ok g

/-- Lines 134-155: attach the constant `ComponentID` and `ComponentName`
per-point arrays. -/
def tagged (p : VtkData) (name : String) : VtkData :=
  { p with
    pointData :=
      addArrayAssoc
        (addArrayAssoc p.pointData "ComponentID"
          (List.replicate p.numPoints (AttrValue.int (component_ids name))))
        "ComponentName"
        (List.replicate p.numPoints (AttrValue.str name)) }

/-- Line 131: tag only when there are points and the label is non-empty. -/
def tag_block (p : VtkData) (name : String) : VtkData :=
  if 0 < p.numPoints ∧ name ≠ "" then tagged p name else p

/-- The body of the `try` block of `convert_to_polydata`. -/
def convert_body (env : Env) (d : VtkData) (name : String) :
    Except String (Option VtkData) :=
  match normalize_body env d with
  | .error e => .error e
  | .ok poly =>
    let poly2 := tag_block poly name
    .ok (if 0 < poly2.numPoints then some poly2 else none)

/-- Lines 108-161: `convert_to_polydata`.  `None` input gives `None`, and
the `try/except` converts any exception into `None`. -/
def convert_to_polydata (env : Env) (data : Option VtkData) (name : String) :
    Option VtkData :=
  match data with
  | none => none
  | some d =>
    match convert_body env d name with
    | .ok r => r
    | .error _ => none

/-! ### `combine_timestep_data` (lines 163-215) -/

/-- Lines 183-185: the component file selected for a timestep,
`if timestep < len(files) and files:` guarding
`files[timestep] if timestep < len(files) else files[0]`. -/
def component_file_for (t : Nat) (files : List String) : Option String :=
  if t < files.length ∧ files ≠ [] then
    some (if t < files.length then files.getD t "" else files.getD 0 "")
  else none

/-- Lines 171-179: the main `gravityCasting` contribution, labelled with
its component name when it registers. -/
def main_contribution (env : Env) (main_file : Option String) :
    List (String × VtkData) :=
  match main_file with
  | none => []
  | some mf =>
    if env.fileExists mf then
      match convert_to_polydata env (safe_read_vtk env mf) "gravityCasting" with
      | some p => [("gravityCasting", p)]
      | none => []
    else []

/-- Lines 182-192: one component's contribution for a timestep. -/
def component_contribution (env : Env) (t : Nat) (component : String)
    (files : List String) : Option (String × VtkData) :=
  match component_file_for t files with
  | none => none
  | some f =>
    (convert_to_polydata env (safe_read_vtk env f) component).map
      (fun p => (component, p))

/-- The surfaces registered with the append filter for one timestep,
labelled by component, in registration order (main first, then the
component kinds in dictionary order). -/
def pipelineInputs (env : Env) (t : Nat) (main_file : Option String)
    (comps : List (String × List String)) : List (String × VtkData) :=
  main_contribution env main_file ++
    comps.filterMap (fun cf => component_contribution env t cf.1 cf.2)

/-- Names of per-point arrays present in every input, in first-input
order, as `vtkAppendPolyData` keeps them. -/
def commonArrayNames (inputs : List VtkData) : List String :=
  match inputs with
  | [] => []
  | p :: _ =>
    (p.pointData.map (fun a => a.1)).filter
      (fun nm => inputs.all (fun q => (lookupArr q.pointData nm).isSome))

/-- `vtkAppendPolyData` with the geometric-append semantics of spec
section 4.5 step 4: point counts add, like-named per-point arrays
concatenate positionally. -/
def appendPolyData (inputs : List VtkData) : VtkData :=
  { className := "vtkPolyData"
    numPoints := (inputs.map (fun p => p.numPoints)).sum
    pointData :=
      (commonArrayNames inputs).map
        (fun nm =>
          (nm, inputs.flatMap (fun q => (lookupArr q.pointData nm).getD [])))
    fieldData := [] }

/-- Lines 163-215: `combine_timestep_data`.  Returns `none` when no
component registered; otherwise appends the registered surfaces and adds
the single-tuple `TimeValue` field array (lines 203-208). -/
def combine_timestep_data (env : Env) (t : Nat) (main_file : Option String)
    (comps : List (String × List String)) : Option VtkData :=
  let inputs := pipelineInputs env t main_file comps
  if inputs.isEmpty then none
  else
    let appended := appendPolyData (inputs.map (fun lp => lp.2))
    some { appended with
            fieldData :=
              addArrayAssoc appended.fieldData "TimeValue"
                [AttrValue.float (t : ℚ)] }

/-! ### `write_vtp` (lines 217-231) -/

/-- Lines 217-231: serialize the mesh; the `try/except` converts any
exception into a `False` return. -/
def write_vtp (env : Env) (m : VtkData) (path : String) : Bool :=
  match env.serialize m path with
  | .ok _ => true
  | .error _ => false

/-! ### Driver (`get_timestep_files`, `convert_all_timesteps`, `main`) -/

/-- Python dict assignment `d[k] = v`: replace any previous binding. -/
def insertAssocNat (d : List (Nat × String)) (k : Nat) (v : String) :
    List (Nat × String) :=
  d.filter (fun a => a.1 != k) ++ [(k, v)]

/-- Python dict lookup `d.get(k)`. -/
def lookupAssoc (d : List (Nat × String)) (k : Nat) : Option String :=
  (d.find? (fun a => a.1 == k)).map (fun a => a.2)

/-- Insertion step of an ascending sort. -/
def insortNat (x : Nat) : List Nat → List Nat
  | [] => [x]
  | y :: ys => if x ≤ y then x :: y :: ys else y :: insortNat x ys

/-- Python `sorted` on a list of naturals. -/
def sortNats (l : List Nat) : List Nat := l.foldr insortNat []

/-- Lines 58-69: the fixed component directories, each listed by the
environment (globbing and natural sort order are external, spec
section 1). -/
def pipeline_component_files (env : Env) : List (String × List String) :=
  [("inlet", env.compFiles "inlet"),
   ("model", env.compFiles "model"),
   ("riser", env.compFiles "riser")]

/-- Lines 37-71: `get_timestep_files` — the timestep-to-main-file map,
the per-component file lists, and `sorted(set(timesteps))`. -/
def get_timestep_files (env : Env) :
    List (Nat × String) × List (String × List String) × List Nat :=
  let mains := env.mainFiles
  let mbt := mains.foldl
    (fun d f => insertAssocNat d (extract_timestep_from_filename f) f) []
  let ts := sortNats ((mains.map extract_timestep_from_filename).dedup)
  (mbt, pipeline_component_files env, ts)

/-- The meshes combined and the files written by one run. -/
structure RunResult where
  combined : List (Nat × VtkData)
  written : List (Nat × VtkData)
  deriving DecidableEq, Repr

/-- Line 258: the output file name `combined_timestep_{t:04d}.vtp`. -/
def output_name (t : Nat) : String :=
  let s := Nat.repr t
  "combined_timestep_" ++ String.mk (List.replicate (4 - s.length) '0') ++ s
    ++ ".vtp"

/-- Lines 250-260: the per-timestep loop — combine, then write on a
non-`None` combine result. -/
def convert_timesteps_loop (env : Env) (mbt : List (Nat × String))
    (comps : List (String × List String)) : List Nat → RunResult
  | [] => ⟨[], []⟩
  | t :: ts =>
    let rest := convert_timesteps_loop env mbt comps ts
    match combine_timestep_data env t (lookupAssoc mbt t) comps with
    | none => rest
    | some m =>
      if write_vtp env m (output_name t)
      then ⟨(t, m) :: rest.combined, (t, m) :: rest.written⟩
      else ⟨(t, m) :: rest.combined, rest.written⟩

/-- Lines 233-266: `convert_all_timesteps`.  `none` models the early
returns (VTK unavailable, no timesteps found). -/
def convert_all_timesteps (env : Env) : Option RunResult :=
  if env.vtkAvailable then
    let (mbt, comps, ts) := get_timestep_files env
    if ts.isEmpty then none
    else some (convert_timesteps_loop env mbt comps ts)
  else none

/-- Lines 268-293: `main`.  Exit code 1 on a missing argument, a missing
input path or unavailable VTK; otherwise the conversion runs to
completion (it is a total function of the environment) and the process
exits 0. -/
def main_run (env : Env) (argv : List String) : Nat × Option RunResult :=
  if argv.length < 2 then (1, none)
  else if ¬ env.pathExists (argv.getD 1 "") then (1, none)
  else if ¬ env.vtkAvailable then (1, none)
  else (0, convert_all_timesteps env)

/-! ### Basic facts about the embedded operations -/

/-- Combining yields the appended mesh, stamped with the time value. -/
theorem combine_eq_some (env : Env) (t : Nat) (mf : Option String)
    (comps : List (String × List String))
    (h : pipelineInputs env t mf comps ≠ []) :
    combine_timestep_data env t mf comps =
      some { appendPolyData ((pipelineInputs env t mf comps).map (fun lp => lp.2)) with
              fieldData := [("TimeValue", [AttrValue.float (t : ℚ)])] } := by
  unfold combine_timestep_data
  rw [if_neg (by simpa [List.isEmpty_iff] using h)]
  rfl

/-- Combining with no registered inputs yields `none`. -/
theorem combine_eq_none (env : Env) (t : Nat) (mf : Option String)
    (comps : List (String × List String))
    (h : pipelineInputs env t mf comps = []) :
    combine_timestep_data env t mf comps = none := by
  unfold combine_timestep_data
  rw [if_pos (by simpa [List.isEmpty_iff] using h)]

/-! ### Concrete data used to exercise the theorems on closed inputs -/

/-- A benign environment: both readers see nothing, filters and the
serializer succeed, every path exists, no files are listed. -/
def trivEnv : Env :=
  { vtkAvailable := true
    readGeneric := fun _ => .ok none
    readUnstructured := fun _ => .ok none
    geomFilter := fun d => .ok d
    surfaceFilter := fun d => .ok d
    serialize := fun _ _ => .ok ()
    fileExists := fun _ => true
    mainFiles := []
    compFiles := fun _ => []
    pathExists := fun _ => true }

/-- A one-point surface mesh with no attribute arrays. -/
def surfaceMesh1 : VtkData :=
  { className := "vtkPolyData", numPoints := 1, pointData := [], fieldData := [] }

/-- A two-point surface mesh with no attribute arrays. -/
def surfaceMesh2 : VtkData :=
  { className := "vtkPolyData", numPoints := 2, pointData := [], fieldData := [] }

/-- An environment whose generic reader always yields `surfaceMesh2`. -/
def readEnv : Env :=
  { trivEnv with readGeneric := fun _ => .ok (some surfaceMesh2) }

/-! ### C2 — component-index alignment -/

/-- C2: the combiner uses the component file at list index `t` exactly
when `t < L`; for `t ≥ L` the component contributes nothing to the
timestep, and the first file of the list is never substituted: any
selected file is the index-`t` file. -/
theorem component_index_alignment (env : Env) (t : Nat) (c : String)
    (files : List String) :
    (t < files.length → component_file_for t files = some (files.getD t ""))
    ∧ (files.length ≤ t → component_file_for t files = none
        ∧ component_contribution env t c files = none)
    ∧ (∀ f, component_file_for t files = some f →
        t < files.length ∧ f = files.getD t "") := by
  refine ⟨fun ht => ?_, fun ht => ?_, fun f hf => ?_⟩
  · have hne : files ≠ [] := by
      intro h
      rw [h] at ht
      exact absurd ht (by simp)
    rw [component_file_for, if_pos ⟨ht, hne⟩, if_pos ht]
  · have hnot : ¬ (t < files.length ∧ files ≠ []) := by
      intro h
      exact absurd ht (not_le.mpr h.1)
    constructor
    · rw [component_file_for, if_neg hnot]
    · rw [component_contribution, component_file_for, if_neg hnot]
  · rw [component_file_for] at hf
    by_cases h : t < files.length ∧ files ≠ []
    · rw [if_pos h, if_pos h.1] at hf
      exact ⟨h.1, (Option.some.injEq ..).mp hf.symm⟩
    · rw [if_neg h] at hf
      exact absurd hf (by simp)

/-- C2 exercised on closed inputs: index 1 of a two-file list is used,
index 2 of the same list contributes nothing. -/
theorem component_index_alignment_witness :
    component_file_for 1 ["a.vtk", "b.vtk"] = some "b.vtk"
    ∧ component_file_for 2 ["a.vtk", "b.vtk"] = none
    ∧ component_contribution trivEnv 2 "inlet" ["a.vtk", "b.vtk"] = none := by
  refine ⟨?_, ?_⟩
  · exact (component_index_alignment trivEnv 1 "inlet" ["a.vtk", "b.vtk"]).1
      (by decide)
  · exact (component_index_alignment trivEnv 2 "inlet" ["a.vtk", "b.vtk"]).2.1
      (by decide)

/-! ### C4 — tolerant reading -/

/-- C4: the reader tries the generic reader first and returns its output
when it has points; when the generic reader yields no points it tries the
unstructured-grid reader; when that also yields no points, or either
strategy raises, it returns `none` — an exception never reaches the
caller (the `Except`-valued body is always caught into an `Option`). -/
theorem safe_read_vtk_spec (env : Env) (fp : String)
    (hv : env.vtkAvailable = true) :
    (∀ d, env.readGeneric fp = .ok (some d) → 0 < d.numPoints →
        safe_read_vtk env fp = some d)
    ∧ (∀ u, (env.readGeneric fp = .ok none
          ∨ ∃ d, env.readGeneric fp = .ok (some d) ∧ d.numPoints = 0) →
        env.readUnstructured fp = .ok (some u) → 0 < u.numPoints →
        safe_read_vtk env fp = some u)
    ∧ ((env.readGeneric fp = .ok none
          ∨ ∃ d, env.readGeneric fp = .ok (some d) ∧ d.numPoints = 0) →
        (env.readUnstructured fp = .ok none
          ∨ (∃ u, env.readUnstructured fp = .ok (some u) ∧ u.numPoints = 0)
          ∨ (∃ e, env.readUnstructured fp = .error e)) →
        safe_read_vtk env fp = none)
    ∧ (∀ e, env.readGeneric fp = .error e → safe_read_vtk env fp = none) := by
  refine ⟨fun d hg hpos => ?_, fun u hg hu hpos => ?_, fun hg hu => ?_,
    fun e hg => ?_⟩
  · rw [safe_read_vtk, if_pos hv, safe_read_body, hg]
    simp [hpos]
  · rw [safe_read_vtk, if_pos hv, safe_read_body]
    rcases hg with hg | ⟨d, hg, hd⟩
    · rw [hg, hu]
      simp [hpos]
    · rw [hg]
      simp [hd, hu, hpos]
  · rw [safe_read_vtk, if_pos hv, safe_read_body]
    rcases hg with hg | ⟨d, hg, hd⟩ <;> rw [hg] <;>
      rcases hu with hu | ⟨u, hu, hu0⟩ | ⟨e, hu⟩ <;> simp [hu, *]
  · rw [safe_read_vtk, if_pos hv, safe_read_body, hg]

/-- C4 exercised on a closed input: the generic reader succeeds with a
two-point mesh, which is returned as-is. -/
theorem safe_read_vtk_spec_witness :
    safe_read_vtk readEnv "f.vtk" = some surfaceMesh2 :=
  (safe_read_vtk_spec readEnv "f.vtk" rfl).1 surfaceMesh2 rfl (by decide)

/-! ### C9 — writer error containment -/

/-- C9: the writer returns `True` exactly when serialization succeeded;
a serialization exception is converted into a `False` return (the
`Except`-valued serializer is always caught into a `Bool`). -/
theorem write_vtp_spec (env : Env) (m : VtkData) (path : String) :
    (write_vtp env m path = true ↔ env.serialize m path = .ok ())
    ∧ (∀ e, env.serialize m path = .error e → write_vtp env m path = false) := by
  constructor
  · rw [write_vtp]
    cases h : env.serialize m path with
    | ok u => cases u; simp
    | error e => simp
  · intro e he
    rw [write_vtp, he]

/-- C9 exercised on closed inputs: a succeeding serializer gives `true`,
a raising serializer gives `false`. -/
theorem write_vtp_spec_witness :
    write_vtp trivEnv surfaceMesh1 "out.vtp" = true
    ∧ write_vtp { trivEnv with serialize := fun _ _ => .error "disk full" }
        surfaceMesh1 "out.vtp" = false := by
  constructor
  · exact (write_vtp_spec trivEnv surfaceMesh1 "out.vtp").1.mpr rfl
  · exact (write_vtp_spec { trivEnv with serialize := fun _ _ => .error "disk full" }
      surfaceMesh1 "out.vtp").2 "disk full" rfl

/-! ### C7 — the TimeValue field -/

/-- C7: every combined mesh produced for timestep `t` carries exactly one
field-data array; it is named `TimeValue`, has a single tuple, and its
value is `float(t)` (floats modelled exactly). -/
theorem combined_time_value (env : Env) (t : Nat) (mf : Option String)
    (comps : List (String × List String)) (m : VtkData)
    (h : combine_timestep_data env t mf comps = some m) :
    m.fieldData = [("TimeValue", [AttrValue.float (t : ℚ)])] := by
  by_cases hin : pipelineInputs env t mf comps = []
  · rw [combine_eq_none env t mf comps hin] at h
    exact absurd h (by simp)
  · rw [combine_eq_some env t mf comps hin] at h
    rw [← Option.some.injEq ..|>.mp h]

/-- C7 exercised on a closed input: combining the one readable main file
at timestep 3 stamps `TimeValue = 3.0`. -/
theorem combined_time_value_witness :
    ((combine_timestep_data readEnv 3 (some "f.vtk")
        (pipeline_component_files readEnv)).getD surfaceMesh1).fieldData
      = [("TimeValue", [AttrValue.float (3 : ℚ)])] :=
  combined_time_value readEnv 3 (some "f.vtk") (pipeline_component_files readEnv)
    ((combine_timestep_data readEnv 3 (some "f.vtk")
        (pipeline_component_files readEnv)).getD surfaceMesh1)
    (by rfl)

/-! ### Facts about tagging, shared by several claims -/

/-- `find?` on the concatenation of two lists. -/
theorem find?_append_pair (l₁ l₂ : List (String × List AttrValue))
    (p : String × List AttrValue → Bool) :
    (l₁ ++ l₂).find? p = (l₁.find? p).or (l₂.find? p) :=
  List.find?_append ..

/-- Looking up the array just added finds it. -/
theorem lookupArr_addArrayAssoc_self (arrays : List (String × List AttrValue))
    (nm : String) (vals : List AttrValue) :
    lookupArr (addArrayAssoc arrays nm vals) nm = some vals := by
  rw [lookupArr, addArrayAssoc, find?_append_pair]
  have hleft : (arrays.filter (fun a => a.1 != nm)).find? (fun a => a.1 == nm)
      = none := by
    rw [List.find?_eq_none]
    intro x hx
    have := List.of_mem_filter hx
    simpa using this
  rw [hleft]
  simp [List.find?]

/-- Adding an array does not disturb lookups of other names. -/
theorem lookupArr_addArrayAssoc_other (arrays : List (String × List AttrValue))
    (nm nm' : String) (vals : List AttrValue) (hne : nm' ≠ nm) :
    lookupArr (addArrayAssoc arrays nm vals) nm' = lookupArr arrays nm' := by
  rw [lookupArr, lookupArr, addArrayAssoc, find?_append_pair]
  have hfilter : (arrays.filter (fun a => a.1 != nm)).find? (fun a => a.1 == nm')
      = arrays.find? (fun a => a.1 == nm') := by
    induction arrays with
    | nil => rfl
    | cons a l ih =>
      by_cases hb : a.1 = nm
      · have h1 : (a.1 != nm) = false := by simp [hb]
        have h2 : (a.1 == nm') = false := by
          rw [beq_eq_false_iff_ne, hb]
          exact Ne.symm hne
        simp [List.filter_cons, h1, List.find?_cons, h2, ih]
      · have h1 : (a.1 != nm) = true := by simp [hb]
        by_cases ha : a.1 = nm'
        · have h2 : (a.1 == nm') = true := by simp [ha]
          simp [List.filter_cons, h1, List.find?_cons, h2]
        · have h2 : (a.1 == nm') = false := by simp [ha]
          simp [List.filter_cons, h1, List.find?_cons, h2, ih]
  rw [hfilter]
  cases h : arrays.find? (fun a => a.1 == nm') with
  | some a => rfl
  | none =>
    have hns : (nm == nm') = false := beq_eq_false_iff_ne.mpr (Ne.symm hne)
    simp [List.find?, hns]

/-- The two arrays attached by the tagger, by name. -/
theorem tagged_arrays (p : VtkData) (name : String) :
    lookupArr (tagged p name).pointData "ComponentID"
        = some (List.replicate p.numPoints (AttrValue.int (component_ids name)))
    ∧ lookupArr (tagged p name).pointData "ComponentName"
        = some (List.replicate p.numPoints (AttrValue.str name)) := by
  constructor
  · rw [tagged]
    show lookupArr (addArrayAssoc (addArrayAssoc p.pointData "ComponentID" _)
      "ComponentName" _) "ComponentID" = _
    rw [lookupArr_addArrayAssoc_other _ _ _ _ (by decide),
      lookupArr_addArrayAssoc_self]
  · rw [tagged]
    show lookupArr (addArrayAssoc _ "ComponentName" _) "ComponentName" = _
    rw [lookupArr_addArrayAssoc_self]

/-- Tagging keeps the point count. -/
theorem tagged_numPoints (p : VtkData) (name : String) :
    (tagged p name).numPoints = p.numPoints := rfl

/-! ### C10 — empty label: untagged non-empty mesh -/

/-- C10: a dataset that normalizes without error to a non-empty surface,
passed with the empty component label, comes back as that normalized mesh
itself — not `none`, and with no tagging arrays added (the result is the
normalizer output, unchanged). -/
theorem convert_empty_label_untagged (env : Env) (d norm : VtkData)
    (hn : normalize_body env d = .ok norm) (hp : 0 < norm.numPoints) :
    convert_to_polydata env (some d) "" = some norm := by
  rw [convert_to_polydata, convert_body, hn]
  have htag : tag_block norm "" = norm := by
    rw [tag_block, if_neg]
    intro h
    exact h.2 rfl
  simp only [htag, if_pos hp]

/-- C10 exercised on a closed input: a one-point surface mesh with the
empty label passes through untouched. -/
theorem convert_empty_label_untagged_witness :
    convert_to_polydata trivEnv (some surfaceMesh1) "" = some surfaceMesh1 :=
  convert_empty_label_untagged trivEnv surfaceMesh1 surfaceMesh1 rfl
    (by decide)

/-! ### C8 — the tagger contract (corrected) -/

/-- C8 as stated is false on the code: for a non-empty mesh with the
empty label, `convert_to_polydata` returns the mesh, not `None` — the
`poly_data.GetNumberOfPoints() > 0` final check keeps it. -/
theorem convert_tagging_counterexample :
    convert_to_polydata trivEnv (some surfaceMesh1) "" ≠ none := by
  intro h
  have : convert_to_polydata trivEnv (some surfaceMesh1) "" = some surfaceMesh1 := by
    rfl
  rw [this] at h
  exact absurd h (by simp)

/-- C8, amended: for an already-surface input mesh with `N` points, the
step returns `none` exactly when `N = 0`; when `N > 0` and the label is
empty it returns the mesh untagged; when `N > 0` and the label is
non-empty it attaches the constant integer `ComponentID` array and the
constant string `ComponentName` array, both of length `N`. -/
theorem convert_tagging_amended (env : Env) (p : VtkData) (label : String)
    (hpoly : p.className = "vtkPolyData") :
    (p.numPoints = 0 → convert_to_polydata env (some p) label = none)
    ∧ (0 < p.numPoints → label = "" →
        convert_to_polydata env (some p) label = some p)
    ∧ (0 < p.numPoints → label ≠ "" →
        convert_to_polydata env (some p) label = some (tagged p label)
        ∧ lookupArr (tagged p label).pointData "ComponentID"
            = some (List.replicate p.numPoints
                (AttrValue.int (component_ids label)))
        ∧ lookupArr (tagged p label).pointData "ComponentName"
            = some (List.replicate p.numPoints (AttrValue.str label))
        ∧ (List.replicate p.numPoints
            (AttrValue.int (component_ids label))).length = p.numPoints
        ∧ (List.replicate p.numPoints (AttrValue.str label)).length
            = p.numPoints) := by
  have hn : normalize_body env p = .ok p := by
    rw [normalize_body, if_pos hpoly]
  refine ⟨fun h0 => ?_, fun hp hl => ?_, fun hp hl => ?_⟩
  · rw [convert_to_polydata, convert_body, hn]
    have htag : tag_block p label = p := by
      rw [tag_block, if_neg]
      intro h
      omega
    simp only [htag, h0]
    simp
  · rw [convert_to_polydata, convert_body, hn]
    have htag : tag_block p label = p := by
      rw [tag_block, if_neg]
      intro h
      exact h.2 hl
    simp only [htag, if_pos hp]
  · have htag : tag_block p label = tagged p label := by
      rw [tag_block, if_pos ⟨hp, hl⟩]
    refine ⟨?_, (tagged_arrays p label).1, (tagged_arrays p label).2,
      List.length_replicate .., List.length_replicate ..⟩
    rw [convert_to_polydata, convert_body, hn]
    simp only [htag]
    rw [if_pos (by rw [tagged_numPoints]; exact hp)]

/-- C8 (amended) exercised on a closed input: a one-point surface mesh
labelled `inlet` comes back tagged with both arrays. -/
theorem convert_tagging_amended_witness :
    convert_to_polydata trivEnv (some surfaceMesh1) "inlet"
        = some (tagged surfaceMesh1 "inlet")
    ∧ lookupArr (tagged surfaceMesh1 "inlet").pointData "ComponentID"
        = some [AttrValue.int 2]
    ∧ lookupArr (tagged surfaceMesh1 "inlet").pointData "ComponentName"
        = some [AttrValue.str "inlet"] := by
  have h := (convert_tagging_amended trivEnv surfaceMesh1 "inlet" rfl).2.2
    (by decide) (by decide)
  exact ⟨h.1, by rw [h.2.1]; rfl, by rw [h.2.2.1]; rfl⟩

/-! ### Driver bookkeeping lemmas -/

/-- Each occurrence of `t` in the timestep list produces exactly one
combined mesh when combining at `t` succeeds, and none at all when it
fails; other timesteps never produce a mesh keyed `t`. -/
theorem loop_countP_combined (env : Env) (mbt : List (Nat × String))
    (comps : List (String × List String)) (t : Nat) (ts : List Nat) :
    (convert_timesteps_loop env mbt comps ts).combined.countP
        (fun e => e.1 == t)
      = if (combine_timestep_data env t (lookupAssoc mbt t) comps).isSome
        then ts.count t else 0 := by
  induction ts with
  | nil => simp [convert_timesteps_loop]
  | cons t' ts ih =>
    rw [convert_timesteps_loop]
    by_cases ht : t' = t
    · subst ht
      cases hc : combine_timestep_data env t' (lookupAssoc mbt t') comps with
      | none =>
        simp only [hc]
        rw [ih, hc]
        simp [List.count_cons]
      | some m =>
        simp only [hc]
        rw [hc] at ih
        by_cases hw : write_vtp env m (output_name t') = true
        · rw [if_pos hw]
          simp only [List.countP_cons]
          rw [ih]
          simp [List.count_cons]
        · rw [if_neg hw]
          simp only [List.countP_cons]
          rw [ih]
          simp [List.count_cons]
    · have hbeq : (t' == t) = false := beq_eq_false_iff_ne.mpr ht
      cases hc : combine_timestep_data env t' (lookupAssoc mbt t') comps with
      | none =>
        simp only [hc]
        rw [ih]
        simp [List.count_cons, hbeq]
      | some m =>
        simp only [hc]
        by_cases hw : write_vtp env m (output_name t') = true
        · rw [if_pos hw]
          simp only [List.countP_cons]
          rw [ih]
          simp [List.count_cons, hbeq]
        · rw [if_neg hw]
          simp only [List.countP_cons]
          rw [ih]
          simp [List.count_cons, hbeq]

/-- The written outputs are a sublist of the combined meshes. -/
theorem loop_written_sublist (env : Env) (mbt : List (Nat × String))
    (comps : List (String × List String)) (ts : List Nat) :
    (convert_timesteps_loop env mbt comps ts).written.Sublist
      (convert_timesteps_loop env mbt comps ts).combined := by
  induction ts with
  | nil => simp [convert_timesteps_loop]
  | cons t' ts ih =>
    rw [convert_timesteps_loop]
    cases hc : combine_timestep_data env t' (lookupAssoc mbt t') comps with
    | none =>
      simp only [hc]
      exact ih
    | some m =>
      simp only [hc]
      by_cases hw : write_vtp env m (output_name t') = true
      · rw [if_pos hw]
        exact ih.cons₂ _
      · rw [if_neg hw]
        exact ih.cons _

/-- A timestep whose combination fails can be dropped from the loop
without changing anything it produces. -/
theorem loop_skip (env : Env) (mbt : List (Nat × String))
    (comps : List (String × List String)) (t : Nat)
    (h : combine_timestep_data env t (lookupAssoc mbt t) comps = none)
    (ts : List Nat) :
    convert_timesteps_loop env mbt comps ts
      = convert_timesteps_loop env mbt comps (ts.filter (fun x => x != t)) := by
  induction ts with
  | nil => rfl
  | cons t' ts ih =>
    by_cases ht : t' = t
    · subst ht
      have hf : List.filter (fun x => x != t') (t' :: ts)
          = List.filter (fun x => x != t') ts := by
        simp [List.filter_cons]
      rw [hf, convert_timesteps_loop]
      simp only [h]
      exact ih
    · have hbne : ((t' : Nat) != t) = true := by simpa using ht
      have hf : List.filter (fun x => x != t) (t' :: ts)
          = t' :: List.filter (fun x => x != t) ts := by
        simp [List.filter_cons, hbne]
      rw [hf, convert_timesteps_loop, convert_timesteps_loop, ih]

/-! ### C1 — one combined mesh per timestep, point counts add -/

/-- C1: when at least one component of a timestep is successfully read
and normalizes to a non-empty surface, the combiner yields a mesh whose
point count is the sum of the contributing surfaces' point counts, and a
driver run whose timestep list mentions `t` once produces exactly one
combined mesh for `t`. -/
theorem combine_point_count (env : Env) (t : Nat) (mf : Option String)
    (comps : List (String × List String))
    (h : pipelineInputs env t mf comps ≠ []) :
    ∃ m, combine_timestep_data env t mf comps = some m
      ∧ m.numPoints
          = ((pipelineInputs env t mf comps).map (fun lp => lp.2.numPoints)).sum
      ∧ ∀ (mbt : List (Nat × String)) (ts : List Nat),
          lookupAssoc mbt t = mf → ts.count t = 1 →
          (convert_timesteps_loop env mbt comps ts).combined.countP
            (fun e => e.1 == t) = 1 := by
  refine ⟨_, combine_eq_some env t mf comps h, ?_, ?_⟩
  · show (appendPolyData ((pipelineInputs env t mf comps).map
      (fun lp => lp.2))).numPoints = _
    rw [appendPolyData]
    rw [List.map_map]
    rfl
  · intro mbt ts hlk hcount
    rw [loop_countP_combined, hlk, combine_eq_some env t mf comps h]
    simp only [Option.isSome_some, if_true]
    exact hcount

/-- C1 exercised on a closed run: one readable two-point main file at
timestep 0 gives one combined mesh of two points. -/
theorem combine_point_count_witness :
    ∃ m, combine_timestep_data readEnv 0 (some "f.vtk")
          (pipeline_component_files readEnv) = some m
      ∧ m.numPoints
          = ((pipelineInputs readEnv 0 (some "f.vtk")
              (pipeline_component_files readEnv)).map
                (fun lp => lp.2.numPoints)).sum
      ∧ ∀ (mbt : List (Nat × String)) (ts : List Nat),
          lookupAssoc mbt 0 = some "f.vtk" → ts.count 0 = 1 →
          (convert_timesteps_loop readEnv mbt
            (pipeline_component_files readEnv) ts).combined.countP
              (fun e => e.1 == 0) = 1 :=
  combine_point_count readEnv 0 (some "f.vtk")
    (pipeline_component_files readEnv) (by decide)

/-! ### C6 — timesteps with no valid data are skipped, run still succeeds -/

/-- C6: when nothing registers for timestep `t`, the combiner returns
`none`, the loop behaves exactly as if `t` were absent from the timestep
list (all other timesteps are still processed), no file is written for
`t`, and a run over a valid environment exits with code 0. -/
theorem empty_timestep_skipped (env : Env) (mbt : List (Nat × String))
    (comps : List (String × List String)) (ts : List Nat) (t : Nat)
    (argv : List String)
    (h : pipelineInputs env t (lookupAssoc mbt t) comps = []) :
    combine_timestep_data env t (lookupAssoc mbt t) comps = none
    ∧ convert_timesteps_loop env mbt comps ts
        = convert_timesteps_loop env mbt comps (ts.filter (fun x => x != t))
    ∧ (convert_timesteps_loop env mbt comps ts).written.countP
        (fun e => e.1 == t) = 0
    ∧ (2 ≤ argv.length → env.pathExists (argv.getD 1 "") = true →
        env.vtkAvailable = true → (main_run env argv).1 = 0) := by
  have hnone := combine_eq_none env t (lookupAssoc mbt t) comps h
  refine ⟨hnone, loop_skip env mbt comps t hnone ts, ?_, ?_⟩
  · have hsub := loop_written_sublist env mbt comps ts
    have hcomb := loop_countP_combined env mbt comps t ts
    rw [hnone] at hcomb
    simp only [Option.isSome_none, Bool.false_eq_true, if_false] at hcomb
    have := hsub.countP_le (fun e => e.1 == t)
    omega
  · intro hargs hpath hvtk
    rw [main_run, if_neg (by omega), if_neg (by rw [hpath]; exact fun h => h rfl),
      if_neg (by rw [hvtk]; exact fun h => h rfl)]

/-- C6 exercised on a closed run: an environment whose readers see
nothing combines no timestep, skipping timestep 0 leaves the (empty)
outputs unchanged, nothing is written for it, and the run exits 0. -/
theorem empty_timestep_skipped_witness :
    combine_timestep_data trivEnv 0 (lookupAssoc [] 0)
        (pipeline_component_files trivEnv) = none
    ∧ convert_timesteps_loop trivEnv [] (pipeline_component_files trivEnv) [0, 1]
        = convert_timesteps_loop trivEnv [] (pipeline_component_files trivEnv)
            (([0, 1] : List Nat).filter (fun x => x != 0))
    ∧ (convert_timesteps_loop trivEnv [] (pipeline_component_files trivEnv)
        [0, 1]).written.countP (fun e => e.1 == 0) = 0
    ∧ (2 ≤ (["prog", "dir"] : List String).length →
        trivEnv.pathExists ((["prog", "dir"] : List String).getD 1 "") = true →
        trivEnv.vtkAvailable = true →
        (main_run trivEnv ["prog", "dir"]).1 = 0) :=
  empty_timestep_skipped trivEnv [] (pipeline_component_files trivEnv) [0, 1] 0
    ["prog", "dir"] (by decide)

/-! ### C5 — component provenance tags in combined meshes -/

/-- `flatMap` respects pointwise-equal functions. -/
theorem flatMap_congr_mem {α β : Type} (l : List α) (f g : α → List β)
    (h : ∀ x ∈ l, f x = g x) : l.flatMap f = l.flatMap g := by
  induction l with
  | nil => rfl
  | cons a l ih =>
    simp only [List.flatMap_cons]
    rw [h a (by simp), ih fun x hx => h x (by simp [hx])]

/-- Tagging is blocked by neither branch of the point-count check. -/
theorem tag_block_numPoints (p : VtkData) (name : String) :
    (tag_block p name).numPoints = p.numPoints := by
  rw [tag_block]
  by_cases h : 0 < p.numPoints ∧ name ≠ ""
  · rw [if_pos h, tagged_numPoints]
  · rw [if_neg h]

/-- A successful conversion under a non-empty label yields a non-empty
surface carrying the two constant provenance arrays. -/
theorem convert_some_tagged (env : Env) (d p : VtkData) (label : String)
    (hl : label ≠ "") (h : convert_to_polydata env (some d) label = some p) :
    0 < p.numPoints
    ∧ lookupArr p.pointData "ComponentID"
        = some (List.replicate p.numPoints (AttrValue.int (component_ids label)))
    ∧ lookupArr p.pointData "ComponentName"
        = some (List.replicate p.numPoints (AttrValue.str label)) := by
  rw [convert_to_polydata, convert_body] at h
  cases hn : normalize_body env d with
  | error e =>
    rw [hn] at h
    exact absurd h (by simp)
  | ok poly =>
    simp only [hn] at h
    by_cases hp : 0 < (tag_block poly label).numPoints
    · rw [if_pos hp] at h
      have hpoly : 0 < poly.numPoints := by
        rw [tag_block_numPoints] at hp
        exact hp
      have htag : tag_block poly label = tagged poly label := by
        rw [tag_block, if_pos ⟨hpoly, hl⟩]
      have hpm : p = tagged poly label := by
        rw [htag] at h
        exact ((Option.some.injEq ..).mp h).symm
      subst hpm
      rw [tagged_numPoints]
      exact ⟨hpoly, (tagged_arrays poly label).1, (tagged_arrays poly label).2⟩
    · rw [if_neg hp] at h
      exact absurd h (by simp)

/-- Every surface registered for a timestep of the pipeline carries a
label from the fixed component enumeration and its two constant
provenance arrays. -/
theorem pipelineInputs_mem_spec (env : Env) (t : Nat) (mf : Option String)
    (comps : List (String × List String))
    (hkeys : ∀ cf ∈ comps, cf.1 ∈ (["inlet", "model", "riser"] : List String))
    (lp : String × VtkData) (hmem : lp ∈ pipelineInputs env t mf comps) :
    lp.1 ∈ (["gravityCasting", "inlet", "model", "riser"] : List String)
    ∧ 0 < lp.2.numPoints
    ∧ lookupArr lp.2.pointData "ComponentID"
        = some (List.replicate lp.2.numPoints
            (AttrValue.int (component_ids lp.1)))
    ∧ lookupArr lp.2.pointData "ComponentName"
        = some (List.replicate lp.2.numPoints (AttrValue.str lp.1)) := by
  rw [pipelineInputs] at hmem
  rcases List.mem_append.mp hmem with hmain | hcomp
  · cases mf with
    | none => exact absurd hmain (by simp [main_contribution])
    | some f =>
      rw [main_contribution] at hmain
      by_cases hex : env.fileExists f = true
      · rw [if_pos hex] at hmain
        cases hc : convert_to_polydata env (safe_read_vtk env f) "gravityCasting" with
        | none =>
          simp only [hc] at hmain
          exact absurd hmain (List.not_mem_nil lp)
        | some p =>
          simp only [hc] at hmain
          have hlp : lp = ("gravityCasting", p) := by simpa using hmain
          subst hlp
          cases hd : safe_read_vtk env f with
          | none =>
            rw [hd, convert_to_polydata] at hc
            exact absurd hc (by simp)
          | some d =>
            rw [hd] at hc
            have := convert_some_tagged env d p "gravityCasting" (by decide) hc
            exact ⟨by simp, this.1, this.2.1, this.2.2⟩
      · rw [if_neg hex] at hmain
        exact absurd hmain (by simp)
  · rcases List.mem_filterMap.mp hcomp with ⟨cf, hcf, hsome⟩
    rw [component_contribution] at hsome
    cases hff : component_file_for t cf.2 with
    | none =>
      simp only [hff] at hsome
      exact absurd hsome (by simp)
    | some f =>
      simp only [hff] at hsome
      cases hc : convert_to_polydata env (safe_read_vtk env f) cf.1 with
      | none =>
        rw [hc] at hsome
        exact absurd hsome (by simp)
      | some p =>
        rw [hc] at hsome
        have hlp : lp = (cf.1, p) := by simpa using hsome.symm
        subst hlp
        have hkey := hkeys cf hcf
        have hl : cf.1 ≠ "" := by
          rcases (by simpa using hkey : cf.1 = "inlet" ∨ cf.1 = "model"
              ∨ cf.1 = "riser") with h | h | h <;> rw [h] <;> decide
        cases hd : safe_read_vtk env f with
        | none =>
          rw [hd, convert_to_polydata] at hc
          exact absurd hc (by simp)
        | some d =>
          rw [hd] at hc
          have := convert_some_tagged env d p cf.1 hl hc
          refine ⟨?_, this.1, this.2.1, this.2.2⟩
          rcases (by simpa using hkey : cf.1 = "inlet" ∨ cf.1 = "model"
              ∨ cf.1 = "riser") with h | h | h <;> rw [h] <;> decide

/-- `find?` by name over a name-keyed `map` finds the first hit. -/
theorem find?_map_name (l : List String) (g : String → List AttrValue)
    (nm : String) (h : nm ∈ l) :
    (l.map (fun n => (n, g n))).find? (fun a => a.1 == nm) = some (nm, g nm) := by
  induction l with
  | nil => exact absurd h (List.not_mem_nil nm)
  | cons n l ih =>
    by_cases hn : n = nm
    · subst hn
      simp [List.find?_cons]
    · have hb : (n == nm) = false := beq_eq_false_iff_ne.mpr hn
      have hmem : nm ∈ l := by
        rcases List.mem_cons.mp h with h | h
        · exact absurd h.symm hn
        · exact h
      simp [List.find?_cons, hb, ih hmem]

/-- A name found in every input survives the append: the output array is
the positional concatenation of the inputs' arrays of that name. -/
theorem appendPolyData_lookup (inputs : List VtkData) (nm : String)
    (hne : inputs ≠ [])
    (harr : ∀ q ∈ inputs, (lookupArr q.pointData nm).isSome = true) :
    lookupArr (appendPolyData inputs).pointData nm
      = some (inputs.flatMap (fun q => (lookupArr q.pointData nm).getD [])) := by
  cases inputs with
  | nil => exact absurd rfl hne
  | cons p rest =>
    have hp := harr p (by simp)
    rcases Option.isSome_iff_exists.mp hp with ⟨arr, hparr⟩
    have hnmem : nm ∈ p.pointData.map (fun a => a.1) := by
      rcases Option.map_eq_some'.mp hparr with ⟨a, hfind, _⟩
      have hmem := List.mem_of_find?_eq_some hfind
      have hpred := List.find?_some hfind
      have : a.1 = nm := by simpa using hpred
      exact this ▸ List.mem_map_of_mem (fun a => a.1) hmem
    have hcommon : nm ∈ commonArrayNames (p :: rest) := by
      rw [commonArrayNames]
      refine List.mem_filter.mpr ⟨hnmem, ?_⟩
      exact List.all_eq_true.mpr harr
    rw [appendPolyData, lookupArr]
    show ((commonArrayNames (p :: rest)).map
        (fun n => (n, (p :: rest).flatMap
          (fun q => (lookupArr q.pointData n).getD []))) |>.find?
            (fun a => a.1 == nm)).map (fun a => a.2) = _
    rw [find?_map_name _ _ nm hcommon]
    rfl

/-- The per-point provenance labels of a registered input list: one label
per contributed point, in contribution order. -/
def pointLabels (inputs : List (String × VtkData)) : List String :=
  inputs.flatMap (fun lp => List.replicate lp.2.numPoints lp.1)

/-- C5: every point of a combined mesh of the pipeline carries a
`ComponentID` drawn from the fixed enumeration (gravityCasting ↦ 1,
inlet ↦ 2, model ↦ 3, riser ↦ 4) and a `ComponentName` equal to the
label of the component that contributed the point: the two arrays are
the per-point image of one label list drawn from the enumeration. -/
theorem combined_component_tags (env : Env) (t : Nat) (mf : Option String)
    (m : VtkData)
    (h : combine_timestep_data env t mf (pipeline_component_files env) = some m) :
    ∃ labels : List String,
      labels.length = m.numPoints
      ∧ (∀ l ∈ labels,
          l ∈ (["gravityCasting", "inlet", "model", "riser"] : List String))
      ∧ (∀ l ∈ labels, component_ids l ∈ ([1, 2, 3, 4] : List Int))
      ∧ lookupArr m.pointData "ComponentID"
          = some (labels.map (fun l => AttrValue.int (component_ids l)))
      ∧ lookupArr m.pointData "ComponentName"
          = some (labels.map AttrValue.str)
      ∧ component_ids "gravityCasting" = 1 ∧ component_ids "inlet" = 2
      ∧ component_ids "model" = 3 ∧ component_ids "riser" = 4 := by
  have hkeys : ∀ cf ∈ pipeline_component_files env,
      cf.1 ∈ (["inlet", "model", "riser"] : List String) := by
    intro cf hcf
    simp only [pipeline_component_files, List.mem_cons,
      List.not_mem_nil, or_false] at hcf
    rcases hcf with h | h | h <;> rw [h]
    · simp
    · simp
    · simp
  set inputs := pipelineInputs env t mf (pipeline_component_files env) with hin
  have hne : inputs ≠ [] := by
    intro he
    rw [combine_eq_none env t mf (pipeline_component_files env) he] at h
    exact absurd h (by simp)
  have hm := combine_eq_some env t mf (pipeline_component_files env) hne
  rw [hm] at h
  have hmeq := (Option.some.injEq ..).mp h
  have hspec := fun lp hlp =>
    pipelineInputs_mem_spec env t mf (pipeline_component_files env) hkeys lp hlp
  refine ⟨pointLabels inputs, ?_, ?_, ?_, ?_, ?_, rfl, rfl, rfl, rfl⟩
  · rw [pointLabels, List.length_flatMap, ← hmeq]
    show _ = (appendPolyData (inputs.map (fun lp => lp.2))).numPoints
    rw [appendPolyData]
    show _ = ((inputs.map (fun lp => lp.2)).map (fun p => p.numPoints)).sum
    rw [List.map_map]
    congr 1
    exact List.map_congr_left fun lp _ => List.length_replicate ..
  · intro l hl
    rw [pointLabels] at hl
    rcases List.mem_flatMap.mp hl with ⟨lp, hlp, hrep⟩
    have := List.eq_of_mem_replicate hrep
    exact this ▸ (hspec lp hlp).1
  · intro l hl
    rw [pointLabels] at hl
    rcases List.mem_flatMap.mp hl with ⟨lp, hlp, hrep⟩
    have heq := List.eq_of_mem_replicate hrep
    subst heq
    rcases (by simpa using (hspec lp hlp).1 :
        lp.1 = "gravityCasting" ∨ lp.1 = "inlet" ∨ lp.1 = "model"
          ∨ lp.1 = "riser") with h | h | h | h <;> rw [h] <;> decide
  · have harr : ∀ q ∈ inputs.map (fun lp => lp.2),
        (lookupArr q.pointData "ComponentID").isSome = true := by
      intro q hq
      rcases List.mem_map.mp hq with ⟨lp, hlp, hq2⟩
      rw [← hq2, (hspec lp hlp).2.2.1]
      rfl
    have hlk := appendPolyData_lookup (inputs.map (fun lp => lp.2))
      "ComponentID" (by simpa using hne) harr
    have hpd : m.pointData
        = (appendPolyData (inputs.map (fun lp => lp.2))).pointData := by
      rw [← hmeq]
    rw [hpd, hlk]
    congr 1
    rw [List.flatMap_map, pointLabels, List.map_flatMap]
    refine flatMap_congr_mem _ _ _ fun lp hlp => ?_
    rw [(hspec lp hlp).2.2.1]
    simp only [Option.getD_some]
    rw [List.map_replicate]
  · have harr : ∀ q ∈ inputs.map (fun lp => lp.2),
        (lookupArr q.pointData "ComponentName").isSome = true := by
      intro q hq
      rcases List.mem_map.mp hq with ⟨lp, hlp, hq2⟩
      rw [← hq2, (hspec lp hlp).2.2.2]
      rfl
    have hlk := appendPolyData_lookup (inputs.map (fun lp => lp.2))
      "ComponentName" (by simpa using hne) harr
    have hpd : m.pointData
        = (appendPolyData (inputs.map (fun lp => lp.2))).pointData := by
      rw [← hmeq]
    rw [hpd, hlk]
    congr 1
    rw [List.flatMap_map, pointLabels, List.map_flatMap]
    refine flatMap_congr_mem _ _ _ fun lp hlp => ?_
    rw [(hspec lp hlp).2.2.2]
    simp only [Option.getD_some]
    rw [List.map_replicate]

/-- C5 exercised on a closed run: the combined mesh of one readable
two-point main file carries `ComponentID = [1, 1]` and
`ComponentName = [gravityCasting, gravityCasting]`. -/
theorem combined_component_tags_witness :
    ∃ labels : List String,
      labels.length = ((combine_timestep_data readEnv 0 (some "f.vtk")
          (pipeline_component_files readEnv)).getD surfaceMesh1).numPoints
      ∧ (∀ l ∈ labels,
          l ∈ (["gravityCasting", "inlet", "model", "riser"] : List String))
      ∧ (∀ l ∈ labels, component_ids l ∈ ([1, 2, 3, 4] : List Int))
      ∧ lookupArr ((combine_timestep_data readEnv 0 (some "f.vtk")
            (pipeline_component_files readEnv)).getD surfaceMesh1).pointData
          "ComponentID"
          = some (labels.map (fun l => AttrValue.int (component_ids l)))
      ∧ lookupArr ((combine_timestep_data readEnv 0 (some "f.vtk")
            (pipeline_component_files readEnv)).getD surfaceMesh1).pointData
          "ComponentName"
          = some (labels.map AttrValue.str)
      ∧ component_ids "gravityCasting" = 1 ∧ component_ids "inlet" = 2
      ∧ component_ids "model" = 3 ∧ component_ids "riser" = 4 :=
  combined_component_tags readEnv 0 (some "f.vtk")
    ((combine_timestep_data readEnv 0 (some "f.vtk")
      (pipeline_component_files readEnv)).getD surfaceMesh1) (by rfl)

/-! ### C3 — timestep extraction -/

/-- Stripping a literal off the list it prefixes leaves the rest. -/
theorem stripLit_append (ps rest : List Char) :
    stripLit ps (ps ++ rest) = some rest := by
  induction ps with
  | nil => rfl
  | cons p ps ih => simp [stripLit, ih]

/-- A successful strip decomposes the input. -/
theorem stripLit_eq_some (ps : List Char) :
    ∀ cs rest, stripLit ps cs = some rest → cs = ps ++ rest := by
  induction ps with
  | nil =>
    intro cs rest h
    rw [stripLit] at h
    simpa using (Option.some.injEq ..).mp h
  | cons p ps ih =>
    intro cs rest h
    cases cs with
    | nil => exact absurd h (by rw [stripLit]; simp)
    | cons c cs =>
      rw [stripLit] at h
      by_cases hc : c = p
      · rw [if_pos hc] at h
        rw [List.cons_append, hc, ih cs rest h]
      · rw [if_neg hc] at h
        exact absurd h (by simp)

/-- The digit run of `ds ++ "." ++ xs` is exactly `ds`. -/
theorem digits_take (ds xs : List Char) (hd : ∀ c ∈ ds, c.isDigit = true) :
    (ds ++ '.' :: xs).takeWhile Char.isDigit = ds
    ∧ (ds ++ '.' :: xs).dropWhile Char.isDigit = '.' :: xs := by
  induction ds with
  | nil =>
    have hdot : Char.isDigit '.' = false := by decide
    constructor <;>
      simp [List.takeWhile_cons, List.dropWhile_cons, hdot]
  | cons c ds ih =>
    have hc : c.isDigit = true := hd c (by simp)
    have ihds := ih fun c hc2 => hd c (by simp [hc2])
    constructor <;>
      simp [List.takeWhile_cons, List.dropWhile_cons, hc, ihds.1, ihds.2]

/-- The pattern matches a canonical name at position 0 with group `ds`. -/
theorem matchPatAt_canonical (ds : List Char) (hne : ds ≠ [])
    (hd : ∀ c ∈ ds, c.isDigit = true) :
    matchPatAt (patLit ++ (ds ++ extLit)) = some ds := by
  have h1 : stripLit patLit (patLit ++ (ds ++ extLit)) = some (ds ++ extLit) :=
    stripLit_append ..
  have h2 : (ds ++ extLit).takeWhile Char.isDigit = ds :=
    (digits_take ds "vtk".data hd).1
  have h3 : (ds ++ extLit).dropWhile Char.isDigit = extLit :=
    (digits_take ds "vtk".data hd).2
  have h4 : stripLit extLit extLit = some [] := by
    have := stripLit_append extLit []
    simpa using this
  have h5 : ds.isEmpty = false := by
    cases ds with
    | nil => exact absurd rfl hne
    | cons c ds => rfl
  rw [matchPatAt]
  simp only [h1, h2, h3, h4, h5]
  simp

/-- A match at position 0 makes the search succeed with that group. -/
theorem searchPat_of_matchPatAt (cs ds : List Char)
    (h : matchPatAt cs = some ds) : searchPat cs = some ds := by
  cases cs with
  | nil =>
    have hnil : matchPatAt ([] : List Char) = none := rfl
    rw [hnil] at h
    exact absurd h (by simp)
  | cons c cs =>
    rw [searchPat]
    simp only [h]

/-- A successful position-0 match decomposes the input around the
pattern. -/
theorem matchPatAt_sound (cs ds : List Char) (h : matchPatAt cs = some ds) :
    ∃ post, cs = patLit ++ (ds ++ (extLit ++ post))
      ∧ ds ≠ [] ∧ ∀ c ∈ ds, c.isDigit = true := by
  rw [matchPatAt] at h
  cases hs : stripLit patLit cs with
  | none =>
    rw [hs] at h
    exact absurd h (by simp)
  | some rest =>
    simp only [hs] at h
    by_cases he : (rest.takeWhile Char.isDigit).isEmpty = true
    · rw [if_pos he] at h
      exact absurd h (by simp)
    · rw [if_neg he] at h
      cases hx : stripLit extLit (rest.dropWhile Char.isDigit) with
      | none =>
        rw [hx] at h
        exact absurd h (by simp)
      | some post =>
        simp only [hx] at h
        have hds : ds = rest.takeWhile Char.isDigit :=
          ((Option.some.injEq ..).mp h).symm
        have h1 := stripLit_eq_some patLit cs rest hs
        have h2 := stripLit_eq_some extLit _ post hx
        refine ⟨post, ?_, ?_, ?_⟩
        · rw [h1]
          congr 1
          rw [hds, ← h2]
          exact (List.takeWhile_append_dropWhile Char.isDigit rest).symm
        · intro hnil
          apply he
          rw [← hds, hnil]
          rfl
        · intro c hc
          rw [hds] at hc
          exact List.mem_takeWhile_imp hc

/-- A successful search decomposes the input around the pattern at some
position. -/
theorem searchPat_sound (cs : List Char) : ∀ ds, searchPat cs = some ds →
    ∃ pre post, cs = pre ++ (patLit ++ (ds ++ (extLit ++ post)))
      ∧ ds ≠ [] ∧ ∀ c ∈ ds, c.isDigit = true := by
  induction cs with
  | nil =>
    intro ds h
    rw [searchPat] at h
    exact absurd h (by simp)
  | cons c cs ih =>
    intro ds h
    rw [searchPat] at h
    cases hm : matchPatAt (c :: cs) with
    | some ds0 =>
      simp only [hm] at h
      have hds : ds0 = ds := by simpa using h
      subst hds
      rcases matchPatAt_sound _ _ hm with ⟨post, hcs, hne, hd⟩
      exact ⟨[], post, by simpa using hcs, hne, hd⟩
    | none =>
      simp only [hm] at h
      rcases ih ds h with ⟨pre, post, hcs, hne, hd⟩
      exact ⟨c :: pre, post, by rw [List.cons_append, ← hcs], hne, hd⟩

/-- A file name contains an occurrence of the fixed pattern: the literal
prefix, a non-empty digit run, and the `.vtk` literal. -/
def matchesTimestepPattern (s : String) : Prop :=
  ∃ pre ds post, s.data = pre ++ (patLit ++ (ds ++ (extLit ++ post)))
    ∧ ds ≠ [] ∧ ∀ c ∈ ds, c.isDigit = true

/-- C3: a name of the pattern's canonical shape — the literal prefix,
digits, the `.vtk` extension — yields the embedded decimal integer, and
a name containing no occurrence of the pattern yields 0. -/
theorem extract_timestep_spec :
    (∀ ds : List Char, ds ≠ [] → (∀ c ∈ ds, c.isDigit = true) →
      extract_timestep_from_filename (String.mk (patLit ++ (ds ++ extLit)))
        = digitsToNat ds)
    ∧ (∀ s : String, ¬ matchesTimestepPattern s →
        extract_timestep_from_filename s = 0) := by
  constructor
  · intro ds hne hd
    rw [extract_timestep_from_filename]
    have hdata : (String.mk (patLit ++ (ds ++ extLit))).data
        = patLit ++ (ds ++ extLit) := rfl
    rw [hdata]
    have hsearch := searchPat_of_matchPatAt _ _ (matchPatAt_canonical ds hne hd)
    simp only [hsearch]
  · intro s hnm
    rw [extract_timestep_from_filename]
    cases hs : searchPat s.data with
    | none => simp only
    | some ds =>
      exfalso
      rcases searchPat_sound s.data ds hs with ⟨pre, post, h1, h2, h3⟩
      exact hnm ⟨pre, ds, post, h1, h2, h3⟩

/-- C3 exercised on closed inputs: `gravityCasting_42.vtk` yields 42 and
a patternless name yields 0. -/
theorem extract_timestep_spec_witness :
    extract_timestep_from_filename
        (String.mk (patLit ++ (['4', '2'] ++ extLit))) = 42
    ∧ extract_timestep_from_filename "mesh.vtk" = 0 := by
  constructor
  · have h := extract_timestep_spec.1 ['4', '2'] (by decide) (by decide)
    rw [h]
    decide
  · refine extract_timestep_spec.2 "mesh.vtk" ?_
    rintro ⟨pre, ds, post, h1, h2, h3⟩
    have hlen := congrArg List.length h1
    simp only [List.length_append] at hlen
    have h15 : patLit.length = 15 := rfl
    have h4 : extLit.length = 4 := rfl
    have h8 : ("mesh.vtk" : String).data.length = 8 := rfl
    rw [h15, h4, h8] at hlen
    have hds : 0 < ds.length := List.length_pos.mpr h2
    omega
